import Mathlib

/-!
Verification development for the iBridges metadata core
(src/ibridges/meta.py and src/ibridges/export_metadata.py).

The MetaData class wraps the AVU (attribute/value/units) triplets of one
remote iRODS item.  We embed the item's AVU list as a Lean list, the
blacklist regular expression as a small literal/char-star pattern (the only
regex shape the code uses, e.g. the default r"^org_*"), and each mutation
method as a pure function from the AVU list to a result together with the
new AVU list.  The remote side is modelled by a boolean permission flag:
when it is false, the underlying catalog calls fail with the iRODS
permission error exactly where the Python client would raise it.
-/

namespace IBridges

/-- Atom of a regular expression as used by the blacklist patterns of
meta.py: a literal character, or a character followed by Kleene star.
The default blacklist r"^org_*" is [lit o, lit r, lit g, star _]. -/
inductive RAtom where
  | lit : Char → RAtom
  | star : Char → RAtom
deriving DecidableEq, Repr

/-- A blacklist pattern: a sequence of regex atoms, anchored at the start
of the string (re.match semantics). -/
abbrev Pattern := List RAtom

/-- Helper for matching a starred character: either the continuation k
matches here, or one more copy of c is consumed.  This mirrors the
backtracking existential semantics of the re module. -/
def starLoop (k : List Char → Bool) (c : Char) : List Char → Bool
  | [] => k []
  | x :: xs => k (x :: xs) || (x == c && starLoop k c xs)

/-- re.match(pattern, s) is not None, on the explicit character list.
A fully consumed pattern matches (re.match is a prefix match). -/
def reMatchL : List RAtom → List Char → Bool
  | [], _ => true
  | RAtom.lit c :: ps, s =>
    match s with
    | [] => false
    | x :: xs => x == c && reMatchL ps xs
  | RAtom.star c :: ps, s => starLoop (reMatchL ps) c s

/-- re.match(pattern, s) is not None, for a string. -/
def reMatch (pat : Pattern) (s : String) : Bool := reMatchL pat s.data

/-- The default blacklist of MetaData.__init__ (meta.py line 52): the
regular expression r"^org_*", i.e. literal "org" followed by zero or more
underscores. -/
def defaultBlacklist : Pattern :=
  [RAtom.lit 'o', RAtom.lit 'r', RAtom.lit 'g', RAtom.star '_']

/-- One AVU (attribute/value/units) triplet attached to an iRODS item.
The units slot is optional, mirroring Optional[str] in the client. -/
structure AVU where
  name : String
  value : String
  units : Option String
deriving DecidableEq, Repr

/-- Error taxonomy of the MetaData methods.  duplicate and blacklist are
both raised as ValueError by MetaData.add (meta.py lines 153 and 155);
permission corresponds to PermissionError / CAT_NO_ACCESS_PERMISSION;
notFound to the not-found KeyError/ValueError cases; validation to the
argument checks of MetaData.update. -/
inductive MErr where
  | duplicate
  | blacklist
  | validation
  | notFound
  | permission
deriving DecidableEq, Repr

/-- Removes the first occurrence of an AVU from the item's list; this is
item.metadata.remove(meta) applied to an AVU known to be present. -/
def removeOne : List AVU → AVU → List AVU
  | [], _ => []
  | x :: xs, a => if x = a then xs else x :: removeOne xs a

/-- Removes the first AVU satisfying a predicate; used for the exact
item.metadata.remove(key, value, units) call. -/
def removeFirstP : List AVU → (AVU → Bool) → List AVU
  | [], _ => []
  | x :: xs, p => if p x then xs else x :: removeFirstP xs p

namespace MetaData

/-- The AVUs yielded by iterating a MetaData view whose blacklist is a
pattern: those whose name does not match it (meta.py lines 62-69). -/
def visible (pat : Pattern) (md : List AVU) : List AVU :=
  md.filter (fun a => !reMatch pat a.name)

/-- One element produced by MetaData.__iter__.  With a None blacklist the
generator first yields the whole item.metadata.items() list (meta.py line
61) and then every entry, so the yielded elements are heterogeneous. -/
inductive IterItem where
  | entriesList : List AVU → IterItem
  | entry : AVU → IterItem
deriving DecidableEq, Repr

/-- MetaData.__iter__ (meta.py lines 58-69): with blacklist None the raw
list object is yielded first and then every entry; with a pattern the
non-matching entries are yielded. -/
def iter (blacklist : Option Pattern) (md : List AVU) : List IterItem :=
  match blacklist with
  | none => IterItem.entriesList md :: md.map IterItem.entry
  | some pat => (visible pat md).map IterItem.entry

/-- MetaData.__len__ (meta.py lines 71-73): the length of the list built
by iterating the view. -/
def len (blacklist : Option Pattern) (md : List AVU) : Nat :=
  (iter blacklist md).length

/-- Units comparison of MetaData.__contains__ (meta.py line 98) for the
third component of a lookup tuple: None is a wildcard, a string must equal
the stored units exactly. -/
def unitsMatch : Option String → Option String → Bool
  | none, _ => true
  | some s, u => u == some s

/-- MetaData.__contains__ for a (key, value) tuple of strings: some
non-blacklisted entry has this name and value (units ignored). -/
def containsKV (pat : Pattern) (md : List AVU) (k v : String) : Bool :=
  (visible pat md).any (fun a => a.name == k && a.value == v)

/-- MetaData.__contains__ for a (key, value, units) tuple where key and
value are strings and units is Optional[str]: a None units component acts
as a wildcard (meta.py line 98). -/
def containsKVU (pat : Pattern) (md : List AVU) (k v : String) (u : Option String) : Bool :=
  (visible pat md).any (fun a => a.name == k && a.value == v && unitsMatch u a.units)

/-- MetaData.add (meta.py lines 120-159): raises ValueError (duplicate)
when the lookup tuple (key, value, units) is already present, ValueError
(blacklist) when the key matches the blacklist, and PermissionError when
the remote denies the catalog add; otherwise appends the new triplet. -/
def add (pat : Pattern) (perm : Bool) (md : List AVU) (k v : String) (u : Option String) :
    Except MErr (List AVU) :=
  if containsKVU pat md k v u then Except.error MErr.duplicate
  else if reMatch pat k then Except.error MErr.blacklist
  else if perm then Except.ok (md ++ [⟨k, v, u⟩]) else Except.error MErr.permission

/-- A value/units argument of MetaData.delete: the Ellipsis sentinel
(wild) or an explicitly supplied Optional[str]. -/
inductive DParam where
  | wild
  | given : Option String → DParam
deriving DecidableEq, Repr

/-- Python `p is ...` for a delete parameter. -/
def DParam.isWild : DParam → Bool
  | DParam.wild => true
  | DParam.given _ => false

/-- Python `p == meta.value` where meta.value is a string: Ellipsis and
None both compare unequal to any string. -/
def dEqVal : DParam → String → Bool
  | DParam.wild, _ => false
  | DParam.given none, _ => false
  | DParam.given (some s), x => s == x

/-- Python `p == meta.units` where meta.units is None or a string:
Ellipsis compares unequal to everything, None equals None. -/
def dEqUnits : DParam → Option String → Bool
  | DParam.wild, _ => false
  | DParam.given q, u => q == u

/-- MetaData.delete (meta.py lines 249-298).  When value or units is the
Ellipsis sentinel, the entries with the given key are fetched and each one
satisfying `value is ... or value == meta.value and units is ... or units
== meta.units` (Python precedence: A or (B and C) or D) is removed; no
entries to remove means the loop body never runs and the call returns
silently.  Otherwise the exact triplet is removed, raising KeyError
(notFound) when it does not exist.  A remote access denial surfaces as the
permission error before anything is removed. -/
def delete (perm : Bool) (md : List AVU) (k : String) (value units : DParam) :
    Option MErr × List AVU :=
  if value.isWild || units.isWild then
    let all_metas := md.filter (fun a => a.name == k)
    let toRemove := all_metas.filter
      (fun a => value.isWild || (dEqVal value a.value && units.isWild) || dEqUnits units a.units)
    match toRemove with
    | [] => (none, md)
    | _ :: _ =>
      if perm then (none, toRemove.foldl removeOne md)
      else (some MErr.permission, md)
  else
    let p := fun (a : AVU) => a.name == k && dEqVal value a.value && dEqUnits units a.units
    if md.any p then
      if perm then (none, removeFirstP md p) else (some MErr.permission, md)
    else (some MErr.notFound, md)

/-- MetaData.set (meta.py lines 161-190): delete every entry with the key
(wildcard delete), then add the new triplet; errors of either step
propagate. -/
def set (pat : Pattern) (perm : Bool) (md : List AVU) (k v : String) (u : Option String) :
    Option MErr × List AVU :=
  match delete perm md k DParam.wild DParam.wild with
  | (some e, md1) => (some e, md1)
  | (none, md1) =>
    match add pat perm md1 k v u with
    | Except.error e => (some e, md1)
    | Except.ok md2 => (none, md2)

/-- The existence check of MetaData.update (meta.py lines 229-234): with
units omitted the (key, value) pair is looked up ignoring units, otherwise
the full (key, value, units) tuple is looked up. -/
def updateFound (pat : Pattern) (md : List AVU) (k v : String) (units : Option String) : Bool :=
  match units with
  | none => containsKV pat md k v
  | some u => containsKVU pat md k v (some u)

/-- The add step of MetaData.update (meta.py lines 237-242): the branch on
which of new_value / new_units were supplied.  The none/none case is
unreachable because update raises the validation error first. -/
def updateAdd (pat : Pattern) (perm : Bool) (md : List AVU) (k v : String)
    (units new_value new_units : Option String) : Except MErr (List AVU) :=
  match new_value, new_units with
  | some nv, some nu => add pat perm md k nv (some nu)
  | some nv, none => add pat perm md k nv units
  | none, some nu => add pat perm md k v (some nu)
  | none, none => Except.ok md

/-- Python truthiness of the Optional[str] units argument at meta.py line
244: None and the empty string are falsy. -/
def unitsTruthy : Option String → Bool
  | none => false
  | some s => s != ""

/-- MetaData.update (meta.py lines 192-247): validation checks, existence
check, then the add of the replacement triplet, then the delete of the
original (key, value, units) triplet — with the empty-string unit when the
units argument was falsy.  A failure of the add step propagates before
anything is deleted. -/
def update (pat : Pattern) (perm : Bool) (md : List AVU) (k v : String)
    (units new_value new_units : Option String) : Option MErr × List AVU :=
  if new_value = none ∧ new_units = none then (some MErr.validation, md)
  else if new_value = some "" then (some MErr.validation, md)
  else if updateFound pat md k v units = false then (some MErr.notFound, md)
  else
    match updateAdd pat perm md k v units new_value new_units with
    | Except.error e => (some e, md)
    | Except.ok md1 =>
      if unitsTruthy units then
        delete perm md1 k (DParam.given (some v)) (DParam.given units)
      else
        delete perm md1 k (DParam.given (some v)) (DParam.given (some ""))

/-- MetaData.clear (meta.py lines 300-321): removes every entry visible
through iteration (so the blacklisted ones stay); the first remote remove
raises the permission error when access is denied. -/
def clear (pat : Pattern) (perm : Bool) (md : List AVU) : Option MErr × List AVU :=
  match visible pat md with
  | [] => (none, md)
  | _ :: _ =>
    if perm then (none, (visible pat md).foldl removeOne md)
    else (some MErr.permission, md)

/-- The "metadata" list built by MetaData.to_dict (meta.py lines 355-358):
the visible entries as (name, value, units) tuples, optionally restricted
to the given attribute names. -/
def to_dict_metadata (pat : Pattern) (md : List AVU) (keys : Option (List String)) :
    List (String × String × Option String) :=
  match keys with
  | none => (visible pat md).map (fun m => (m.name, m.value, m.units))
  | some ks =>
    ((visible pat md).filter (fun m => ks.contains m.name)).map
      (fun m => (m.name, m.value, m.units))

/-- Which MetaData.add failures are raised as a Python ValueError and are
therefore swallowed by the `except ValueError: pass` of from_dict: both
the duplicate and the blacklist case (meta.py lines 153-156). -/
def addValueError : MErr → Bool
  | MErr.duplicate => true
  | MErr.blacklist => true
  | _ => false

/-- MetaData.from_dict (meta.py lines 361-388): add every (name, value,
units) triplet of the dictionary in order; a ValueError from add is
suppressed and the remaining triplets are processed, any other exception
propagates immediately and aborts the rest. -/
def from_dict (pat : Pattern) (perm : Bool) :
    List AVU → List (String × String × Option String) → Option MErr × List AVU
  | md, [] => (none, md)
  | md, (k, v, u) :: rest =>
    match add pat perm md k v u with
    | Except.ok md1 => from_dict pat perm md1 rest
    | Except.error e =>
      if addValueError e then from_dict pat perm md rest else (some e, md)

end MetaData

/-!
Embedding of export_metadata.py.  An iRODS item carries a name, a catalog
id, a path and its AVUs; a data object additionally has a checksum, a
collection has direct data objects and direct subcollections.

Modelled from the spec: the class IrodsPath of this repository is not part
of the sources provided here, only its use in get_subcolls; following the
spec, IrodsPath(session, p).parts is the sequence of path segments of p,
so items carry their absolute path directly as a list of segments and
rel_path is the child's segments beyond the root's segment count rejoined
with "/".
-/

/-- A remote data object handle as used by get_subcolls: name, catalog id,
absolute path segments, checksum and its AVUs. -/
structure ObjNode where
  name : String
  oid : Nat
  path : List String
  checksum : String
  meta : List AVU
deriving DecidableEq, Repr

/-- A remote collection handle: name, catalog id, absolute path segments,
its AVUs, its direct data objects and its direct subcollections. -/
inductive CollNode where
  | mk : String → Nat → List String → List AVU → List ObjNode → List CollNode → CollNode
deriving Repr

/-- Name of a collection. -/
def CollNode.name : CollNode → String
  | CollNode.mk n _ _ _ _ _ => n

/-- Catalog id of a collection. -/
def CollNode.cid : CollNode → Nat
  | CollNode.mk _ i _ _ _ _ => i

/-- Absolute path segments of a collection. -/
def CollNode.path : CollNode → List String
  | CollNode.mk _ _ p _ _ _ => p

/-- AVUs of a collection. -/
def CollNode.meta : CollNode → List AVU
  | CollNode.mk _ _ _ m _ _ => m

/-- Direct data objects of a collection. -/
def CollNode.objs : CollNode → List ObjNode
  | CollNode.mk _ _ _ _ os _ => os

/-- Direct subcollections of a collection. -/
def CollNode.subs : CollNode → List CollNode
  | CollNode.mk _ _ _ _ _ cs => cs

/-- The dictionary shape produced by MetaData.to_dict (meta.py lines
350-359): name, catalog id, the checksum for data objects only, and the
metadata tuple list. -/
structure ToDictOut where
  name : String
  irods_id : Nat
  checksum : Option String
  metadata : List (String × String × Option String)
deriving DecidableEq, Repr

/-- MetaData(o).to_dict() for a data object with the default blacklist, as
built inside get_subcolls (export_metadata.py line 73). -/
def objToDict (o : ObjNode) : ToDictOut :=
  { name := o.name, irods_id := o.oid, checksum := some o.checksum,
    metadata := MetaData.to_dict_metadata defaultBlacklist o.meta none }

/-- MetaData(c).to_dict() for a collection with the default blacklist, as
built inside get_subcolls (export_metadata.py line 79). -/
def collToDict (c : CollNode) : ToDictOut :=
  { name := c.name, irods_id := c.cid, checksum := none,
    metadata := MetaData.to_dict_metadata defaultBlacklist c.meta none }

/-- One record of the flat dataobjects / subcollections lists built by
get_subcolls: name, catalog id, the slash-joined relative path, and the
item's own to_dict. -/
structure ExpRec where
  name : String
  irods_id : Nat
  rel_path : String
  metadata : ToDictOut
deriving DecidableEq, Repr

/-- The record get_subcolls builds for a direct data object of the current
collection (export_metadata.py lines 70-75): rel_path joins the object's
path segments beyond the root's segment count. -/
def objRec (rootParts : List String) (o : ObjNode) : ExpRec :=
  { name := o.name, irods_id := o.oid,
    rel_path := String.intercalate "/" (o.path.drop rootParts.length),
    metadata := objToDict o }

/-- The record get_subcolls builds for a direct subcollection
(export_metadata.py lines 76-80). -/
def collRec (rootParts : List String) (c : CollNode) : ExpRec :=
  { name := c.name, irods_id := c.cid,
    rel_path := String.intercalate "/" (c.path.drop rootParts.length),
    metadata := collToDict c }

mutual

/-- get_subcolls (export_metadata.py lines 63-89): builds the records of
the direct data objects and subcollections relative to the root path (the
collection's own path when no root is given), then — only when there is at
least one direct subcollection — recurses into each subcollection with the
same root, extending both flat lists; with no direct subcollections the
collections list is reset to the empty list. -/
def get_subcolls (root : Option (List String)) : CollNode → List ExpRec × List ExpRec
  | CollNode.mk _ _ path _ objs subs =>
    let coll_path := match root with | some r => r | none => path
    let objects := objs.map (objRec coll_path)
    let collections := subs.map (collRec coll_path)
    if 0 < subs.length then
      let rest := get_subcolls_over coll_path subs
      (objects ++ rest.1, collections ++ rest.2)
    else
      (objects, [])

/-- The loop of export_metadata.py lines 82-85: recurse into each direct
subcollection with the inherited root, concatenating the flat lists. -/
def get_subcolls_over (coll_path : List String) : List CollNode → List ExpRec × List ExpRec
  | [] => ([], [])
  | c :: cs =>
    let first := get_subcolls (some coll_path) c
    let rest := get_subcolls_over coll_path cs
    (first.1 ++ rest.1, first.2 ++ rest.2)

end

/-- The dictionary built by export_metadata_to_dict for an item
(export_metadata.py lines 51-61); the subcollections and dataobjects keys
are only present for a recursive collection export. -/
structure ExportDict where
  name : String
  irods_id : Nat
  checksum : Option String
  metadata : List (String × String × Option String)
  subcollections : Option (List ExpRec)
  dataobjects : Option (List ExpRec)
deriving DecidableEq, Repr

/-- export_metadata_to_dict on a collection (export_metadata.py lines
53-60): the collection's own to_dict with the caller's MetaData view, and,
when recursive, the two flat lists of get_subcolls rooted at the
collection's own path. -/
def export_metadata_to_dict_coll (pat : Pattern) (coll : CollNode) (recursive : Bool)
    (keys : Option (List String)) : ExportDict :=
  let base : ExportDict :=
    { name := coll.name, irods_id := coll.cid, checksum := none,
      metadata := MetaData.to_dict_metadata pat coll.meta keys,
      subcollections := none, dataobjects := none }
  if recursive then
    let res := get_subcolls (some coll.path) coll
    { base with subcollections := some res.2, dataobjects := some res.1 }
  else base

/-- A data object is a descendant of a collection: either one of its
direct data objects, or a descendant of one of its direct
subcollections. -/
inductive IsDescObj : CollNode → ObjNode → Prop
  | direct (n : String) (i : Nat) (p : List String) (m : List AVU)
      (objs : List ObjNode) (subs : List CollNode) (o : ObjNode) :
      o ∈ objs → IsDescObj (CollNode.mk n i p m objs subs) o
  | nested (n : String) (i : Nat) (p : List String) (m : List AVU)
      (objs : List ObjNode) (subs : List CollNode) (c : CollNode) (o : ObjNode) :
      c ∈ subs → IsDescObj c o → IsDescObj (CollNode.mk n i p m objs subs) o

/-!
Helper lemmas shared by the claim theorems.
-/

/-- Folding removeOne over values all different from the head leaves the
head in place. -/
theorem foldl_removeOne_cons (ys : List AVU) (x : AVU) (xs : List AVU)
    (h : ∀ y ∈ ys, y ≠ x) :
    ys.foldl removeOne (x :: xs) = x :: ys.foldl removeOne xs := by
  induction ys generalizing xs with
  | nil => rfl
  | cons y ys ih =>
    have hxy : ¬(x = y) := fun he => (h y (List.mem_cons_self y ys)) he.symm
    simp only [List.foldl_cons, removeOne, if_neg hxy]
    exact ih (removeOne xs y) (fun z hz => h z (List.mem_cons_of_mem y hz))

/-- Removing, one by one, exactly the entries satisfying p from a list
leaves the entries not satisfying p. -/
theorem foldl_removeOne_filter (l : List AVU) (p : AVU → Bool) :
    (l.filter p).foldl removeOne l = l.filter (fun a => !p a) := by
  induction l with
  | nil => rfl
  | cons x xs ih =>
    by_cases hp : p x = true
    · have hfil : (x :: xs).filter p = x :: xs.filter p := by
        simp [List.filter_cons, hp]
      have hres : (x :: xs).filter (fun a => !p a) = xs.filter (fun a => !p a) := by
        simp [List.filter_cons, hp]
      rw [hfil, hres, List.foldl_cons]
      have : removeOne (x :: xs) x = xs := by simp [removeOne]
      rw [this, ih]
    · have hp' : p x = false := by simpa using hp
      have hfil : (x :: xs).filter p = xs.filter p := by
        simp [List.filter_cons, hp']
      have hres : (x :: xs).filter (fun a => !p a) = x :: xs.filter (fun a => !p a) := by
        simp [List.filter_cons, hp']
      rw [hfil, hres]
      rw [foldl_removeOne_cons (xs.filter p) x xs (fun y hy => by
        intro he
        have hpy : p y = true := List.of_mem_filter hy
        rw [he, hp'] at hpy
        exact Bool.false_ne_true hpy)]
      rw [ih]

/-- For a wildcard value parameter, the units parameter of MetaData.delete
is irrelevant: the or-chain of the removal condition is decided by its
first disjunct. -/
theorem delete_wild_eq (perm : Bool) (md : List AVU) (k : String) (u : MetaData.DParam) :
    MetaData.delete perm md k MetaData.DParam.wild u =
      MetaData.delete perm md k MetaData.DParam.wild MetaData.DParam.wild := by
  simp [MetaData.delete, MetaData.DParam.isWild]

/-- A permitted wildcard delete of a key removes exactly the entries with
that name, silently succeeding also when there are none. -/
theorem delete_wild_true (md : List AVU) (k : String) :
    MetaData.delete true md k MetaData.DParam.wild MetaData.DParam.wild =
      (none, md.filter (fun a => !(a.name == k))) := by
  unfold MetaData.delete
  simp only [MetaData.DParam.isWild, Bool.true_or, if_true, List.filter_true]
  cases h : md.filter (fun a => a.name == k) with
  | nil =>
    have : md.filter (fun a => !(a.name == k)) = md := by
      rw [List.filter_eq_self]
      intro a ha
      have := (List.filter_eq_nil_iff.mp h) a ha
      simpa using this
    simp [h, this]
  | cons y ys =>
    have hfold := foldl_removeOne_filter md (fun a => a.name == k)
    rw [h] at hfold
    simp [h, hfold]

/-- If no visible entry carries the key, the three-component membership
test of MetaData is false for that key. -/
theorem containsKVU_no_key (pat : Pattern) (md : List AVU) (k : String)
    (h : ∀ a ∈ md, (a.name == k) = false) (v : String) (u : Option String) :
    MetaData.containsKVU pat md k v u = false := by
  unfold MetaData.containsKVU
  rw [List.any_eq_false]
  intro a ha
  have ha' : a ∈ md := (List.mem_filter.mp ha).1
  simp [h a ha']

/-- Membership in the flat objects list is preserved by the recursion loop
of get_subcolls. -/
theorem get_subcolls_over_mem {r : List String} {cs : List CollNode} {c : CollNode}
    (hc : c ∈ cs) {x : ExpRec} (hx : x ∈ (get_subcolls (some r) c).1) :
    x ∈ (get_subcolls_over r cs).1 := by
  induction cs with
  | nil => cases hc
  | cons d ds ih =>
    rw [get_subcolls_over]
    rcases List.mem_cons.mp hc with h | h
    · subst h
      exact List.mem_append_left _ hx
    · exact List.mem_append_right _ (ih h)

/-- Every descendant data object of a collection contributes its record,
relative to the inherited root, to the flat objects list of
get_subcolls. -/
theorem get_subcolls_obj (r : List String) (c : CollNode) (o : ObjNode)
    (h : IsDescObj c o) : objRec r o ∈ (get_subcolls (some r) c).1 := by
  induction h with
  | direct n i p m objs subs o ho =>
    rw [get_subcolls]
    by_cases hs : 0 < subs.length
    · simp only [if_pos hs]
      exact List.mem_append_left _ (List.mem_map_of_mem (objRec r) ho)
    · simp only [if_neg hs]
      exact List.mem_map_of_mem (objRec r) ho
  | nested n i p m objs subs c o hc hdesc ih =>
    rw [get_subcolls]
    have hs : 0 < subs.length := List.length_pos.mpr (List.ne_nil_of_mem hc)
    simp only [if_pos hs]
    exact List.mem_append_right _ (get_subcolls_over_mem hc ih)

/-!
Claim theorems.
-/

/-- C1 (counterexample): the claim says a blacklist violation inside
from_dict propagates to the caller immediately and aborts the rest of the
restore.  On the code it does not: restoring the triplets (org_x, 1, -)
and (A, 1, -) into an empty item with the default blacklist swallows the
blacklist ValueError of the first triplet, continues, adds the second
triplet, and reports no error at all. -/
theorem C1_counterexample :
    MetaData.from_dict defaultBlacklist true []
        [("org_x", "1", none), ("A", "1", none)] =
      (none, [⟨"A", "1", none⟩]) := rfl

/-- C1 (amended): from_dict suppresses, per-triplet, exactly the add
failures that Python raises as ValueError — the duplicate case and the
blacklist-violation case — and continues with the remaining triplets,
while a permission denial propagates immediately, aborting the rest of the
restore with the metadata unchanged by the failing call. -/
theorem C1_from_dict_value_errors (pat : Pattern) (perm : Bool) (md : List AVU)
    (k v : String) (u : Option String) (rest : List (String × String × Option String)) :
    ((MetaData.add pat perm md k v u = Except.error MErr.duplicate ∨
      MetaData.add pat perm md k v u = Except.error MErr.blacklist) →
        MetaData.from_dict pat perm md ((k, v, u) :: rest) =
          MetaData.from_dict pat perm md rest) ∧
    (MetaData.add pat perm md k v u = Except.error MErr.permission →
        MetaData.from_dict pat perm md ((k, v, u) :: rest) = (some MErr.permission, md)) := by
  constructor
  · rintro (h | h) <;> simp [MetaData.from_dict, h, MetaData.addValueError]
  · intro h
    simp [MetaData.from_dict, h, MetaData.addValueError]

/-- C1 (witness): concrete instances of both halves of the amended claim:
a blacklist failure on (org_x, 1, -) is suppressed and the restore
continues, while a permission failure on (A, 1, -) aborts it with the
error surfaced. -/
theorem C1_from_dict_value_errors_witness :
    (MetaData.from_dict defaultBlacklist true [] [("org_x", "1", none), ("B", "2", none)] =
       MetaData.from_dict defaultBlacklist true [] [("B", "2", none)]) ∧
    (MetaData.from_dict defaultBlacklist false [] [("A", "1", none), ("B", "2", none)] =
       (some MErr.permission, [])) :=
  ⟨(C1_from_dict_value_errors defaultBlacklist true [] "org_x" "1" none
      [("B", "2", none)]).1 (Or.inr rfl),
   (C1_from_dict_value_errors defaultBlacklist false [] "A" "1" none
      [("B", "2", none)]).2 rfl⟩

/-- C2: the claim says add raises the duplicate error only when the exact
(key, value, units) triplet is present, full three-component identity.  On
the code the None units argument is a wildcard in the membership test
(meta.py line 98), so add("A", "1", None) against entries containing only
(A, 1, kg) raises Duplicate even though the exact triplet (A, 1, no units)
is absent — the behaviour add's own docstring rules out. -/
theorem C2_code_evaluation :
    MetaData.add defaultBlacklist true [⟨"A", "1", some "kg"⟩] "A" "1" none =
      Except.error MErr.duplicate ∧
    (⟨"A", "1", none⟩ : AVU) ∉ [(⟨"A", "1", some "kg"⟩ : AVU)] :=
  ⟨rfl, by decide⟩

/-- C3 (counterexample): the claim says update with units omitted keeps
the old entry's units and replaces the original entry.  On entries
[(A, 1, kg)], update("A", "1", new_value = "2") instead adds (A, 2, no
units) — the units argument, not the old kg — then fails with the
not-found error while deleting (A, 1, '') and leaves the original (A, 1,
kg) in place; the replacement (A, 2, kg) demanded by the claim never
appears. -/
theorem C3_counterexample :
    MetaData.update defaultBlacklist true [⟨"A", "1", some "kg"⟩] "A" "1" none
        (some "2") none =
      (some MErr.notFound, [⟨"A", "1", some "kg"⟩, ⟨"A", "2", none⟩]) ∧
    (⟨"A", "2", some "kg"⟩ : AVU) ∉
      (MetaData.update defaultBlacklist true [⟨"A", "1", some "kg"⟩] "A" "1" none
        (some "2") none).2 ∧
    (⟨"A", "1", some "kg"⟩ : AVU) ∈
      (MetaData.update defaultBlacklist true [⟨"A", "1", some "kg"⟩] "A" "1" none
        (some "2") none).2 := by
  refine ⟨rfl, ?_, ?_⟩ <;> decide

/-- C3 (amended): for an existing single entry (key, value, units) with
non-empty units, calling update with the units argument omitted and a
non-empty new value different from the old one builds the replacement
from the units argument as passed (no units), not from the old entry's
units: it adds (key, new_value, no units) and then fails with the
not-found error when deleting (key, value, ''), leaving the original entry
in place next to the added one. -/
theorem C3_update_units_omitted (pat : Pattern) (k v ug nv : String)
    (hb : reMatch pat k = false) (hg : ug ≠ "") (hnv : nv ≠ "") (hne : nv ≠ v) :
    MetaData.update pat true [⟨k, v, some ug⟩] k v none (some nv) none =
      (some MErr.notFound, [⟨k, v, some ug⟩, ⟨k, nv, none⟩]) := by
  have hkk : (k == k) = true := by simp
  have hvv : (v == v) = true := by simp
  have hvnv : (v == nv) = false := by
    simpa using fun he => hne he.symm
  have hnvv : (nv == v) = false := by
    simpa using hne
  have hug : (some "" == some ug) = false := by
    simpa using fun he => hg he.symm
  have hfound : MetaData.updateFound pat [⟨k, v, some ug⟩] k v none = true := by
    simp [MetaData.updateFound, MetaData.containsKV, MetaData.visible, hb]
  have hadd : MetaData.updateAdd pat true [⟨k, v, some ug⟩] k v none (some nv) none =
      Except.ok [⟨k, v, some ug⟩, ⟨k, nv, none⟩] := by
    simp [MetaData.updateAdd, MetaData.add, MetaData.containsKVU, MetaData.visible,
      hb, hvnv]
  unfold MetaData.update
  rw [if_neg (by simp), if_neg (by simp [hnv]), if_neg (by simp [hfound]), hadd]
  simp only [MetaData.unitsTruthy]
  unfold MetaData.delete
  simp [MetaData.DParam.isWild, MetaData.dEqVal, MetaData.dEqUnits, hug, hnvv]

/-- C3 (witness): the amended behaviour at the concrete entry (A, 1, kg)
with new value 2 under the default blacklist. -/
theorem C3_update_units_omitted_witness :
    MetaData.update defaultBlacklist true [⟨"A", "1", some "kg"⟩] "A" "1" none
        (some "2") none =
      (some MErr.notFound, [⟨"A", "1", some "kg"⟩, ⟨"A", "2", none⟩]) :=
  C3_update_units_omitted defaultBlacklist "A" "1" "kg" "2" rfl
    (by decide) (by decide) (by decide)

/-- C4: the claim (and delete's own docstring) says delete raises the
not-found error whenever the targeted entry set is empty.  On the code the
wildcard branches silently succeed: with entries [(A, 1, -)], delete of
the key mass (no such entries) and delete of key A with value 2 (key
present, no matching value) both return without error, leaving the
metadata unchanged. -/
theorem C4_code_evaluation :
    MetaData.delete true [⟨"A", "1", none⟩] "mass"
        MetaData.DParam.wild MetaData.DParam.wild =
      (none, [⟨"A", "1", none⟩]) ∧
    MetaData.delete true [⟨"A", "1", none⟩] "A"
        (MetaData.DParam.given (some "2")) MetaData.DParam.wild =
      (none, [⟨"A", "1", none⟩]) :=
  ⟨rfl, rfl⟩

/-- C5: the claim says iterating a view with a None blacklist yields
exactly the item's AVU entries, one per step, and the length equals the
number of entries.  On the code the generator first yields the whole
item.metadata.items() list (meta.py line 61) and then every entry: over a
single entry (A, 1, -) the iteration produces two elements — the raw list
and the entry — and the length is 2, not 1. -/
theorem C5_code_evaluation :
    MetaData.iter none [⟨"A", "1", none⟩] =
      [MetaData.IterItem.entriesList [⟨"A", "1", none⟩],
       MetaData.IterItem.entry ⟨"A", "1", none⟩] ∧
    MetaData.len none [⟨"A", "1", none⟩] = 2 :=
  ⟨rfl, rfl⟩

/-- C6: the claim (and the class docstring) says the default blacklist
excludes exactly the names starting with org_, so a name such as orgx must
be yielded, exported and cleared.  On the code the default pattern is the
regular expression ^org_* — org followed by zero or more underscores — so
orgx matches it: the entry (orgx, 1, -) is excluded from iteration, from
to_dict's metadata list and from clear's deletion set (clear leaves it in
place), even though its name does not start with org_. -/
theorem C6_code_evaluation :
    reMatch defaultBlacklist "orgx" = true ∧
    List.isPrefixOf ['o', 'r', 'g', '_'] "orgx".data = false ∧
    MetaData.iter (some defaultBlacklist) [⟨"orgx", "1", none⟩] = [] ∧
    MetaData.to_dict_metadata defaultBlacklist [⟨"orgx", "1", none⟩] none = [] ∧
    MetaData.clear defaultBlacklist true [⟨"orgx", "1", none⟩] =
      (none, [⟨"orgx", "1", none⟩]) :=
  ⟨rfl, rfl, rfl, rfl, rfl⟩

/-- C7: set on a non-blacklisted key deletes every entry with that key,
whatever its value and units, and then adds the new triplet: the result is
exactly the entries of the other keys, unchanged, plus the single new
(key, value, units) entry. -/
theorem C7_set_replaces_all (pat : Pattern) (md : List AVU) (k v : String)
    (u : Option String) (hb : reMatch pat k = false) :
    MetaData.set pat true md k v u =
      (none, md.filter (fun a => !(a.name == k)) ++ [⟨k, v, u⟩]) := by
  have hnokey : ∀ a ∈ md.filter (fun a => !(a.name == k)), (a.name == k) = false := by
    intro a ha
    have := (List.mem_filter.mp ha).2
    simpa using this
  have hc : MetaData.containsKVU pat (md.filter (fun a => !(a.name == k))) k v u = false :=
    containsKVU_no_key pat _ k hnokey v u
  unfold MetaData.set
  rw [delete_wild_true]
  simp [MetaData.add, hc, hb]

/-- C7 (witness): with entries (A, 1, -), (A, 2, kg) and (B, 9, -),
set("A", "3") leaves exactly (B, 9, -) and the single new entry
(A, 3, -). -/
theorem C7_set_replaces_all_witness :
    MetaData.set defaultBlacklist true
        [⟨"A", "1", none⟩, ⟨"A", "2", some "kg"⟩, ⟨"B", "9", none⟩] "A" "3" none =
      (none, [⟨"B", "9", none⟩, ⟨"A", "3", none⟩]) :=
  C7_set_replaces_all defaultBlacklist
    [⟨"A", "1", none⟩, ⟨"A", "2", some "kg"⟩, ⟨"B", "9", none⟩] "A" "3" none rfl

/-- C9: update performs the add of the replacement triplet before the
delete of the original: whenever the add step fails — with any error —
the call returns that error with the item's metadata exactly as it was, so
the original entry is still present. -/
theorem C9_update_add_before_delete (pat : Pattern) (perm : Bool) (md : List AVU)
    (k v : String) (units nv nu : Option String) (e : MErr)
    (h1 : ¬(nv = none ∧ nu = none)) (h2 : nv ≠ some "")
    (h3 : MetaData.updateFound pat md k v units = true)
    (h4 : MetaData.updateAdd pat perm md k v units nv nu = Except.error e) :
    MetaData.update pat perm md k v units nv nu = (some e, md) := by
  unfold MetaData.update
  rw [if_neg h1, if_neg h2, if_neg (by simp [h3]), h4]

/-- C9 (witness): on entries (A, 1, -) and (A, 2, -), the add step of
update("A", "1", new_value = "2") fails with the duplicate error, and the
failed call leaves the metadata unchanged with the original entry
present. -/
theorem C9_update_add_before_delete_witness :
    MetaData.update defaultBlacklist true [⟨"A", "1", none⟩, ⟨"A", "2", none⟩]
        "A" "1" none (some "2") none =
      (some MErr.duplicate, [⟨"A", "1", none⟩, ⟨"A", "2", none⟩]) :=
  C9_update_add_before_delete defaultBlacklist true
    [⟨"A", "1", none⟩, ⟨"A", "2", none⟩] "A" "1" none (some "2") none MErr.duplicate
    (by decide) (by decide) rfl rfl

/-- C10: delete with the value argument left at its wildcard sentinel but
units given explicitly behaves identically to delete with both left as
wildcards — the supplied units argument is ignored — and, when permitted,
removes every entry with the key regardless of value and units. -/
theorem C10_delete_units_ignored (perm : Bool) (md : List AVU) (k : String)
    (u : Option String) :
    MetaData.delete perm md k MetaData.DParam.wild (MetaData.DParam.given u) =
      MetaData.delete perm md k MetaData.DParam.wild MetaData.DParam.wild ∧
    MetaData.delete true md k MetaData.DParam.wild (MetaData.DParam.given u) =
      (none, md.filter (fun a => !(a.name == k))) := by
  refine ⟨delete_wild_eq perm md k _, ?_⟩
  rw [delete_wild_eq]
  exact delete_wild_true md k

/-- C8: in a recursive export of a collection, every descendant data
object at any depth appears in the single flat dataobjects list, with
rel_path equal to its path segments beyond the export root's segment
count, rejoined with "/". -/
theorem C8_export_rel_path (pat : Pattern) (coll : CollNode) (o : ObjNode)
    (h : IsDescObj coll o) :
    ∃ objs, (export_metadata_to_dict_coll pat coll true none).dataobjects = some objs ∧
      objRec coll.path o ∈ objs ∧
      (objRec coll.path o).rel_path =
        String.intercalate "/" (o.path.drop coll.path.length) := by
  refine ⟨(get_subcolls (some coll.path) coll).1, ?_, ?_, rfl⟩
  · simp [export_metadata_to_dict_coll]
  · exact get_subcolls_obj coll.path coll o h

/-- The object x.txt of the worked example of the spec: it lives in the
subcollection sub of the exported root collection. -/
def sampleX : ObjNode :=
  { name := "x.txt", oid := 11, path := ["zone", "home", "root", "sub", "x.txt"],
    checksum := "sha2:abc", meta := [] }

/-- The subcollection sub of the worked example. -/
def sampleSub : CollNode :=
  CollNode.mk "sub" 12 ["zone", "home", "root", "sub"] [] [sampleX] []

/-- The exported root collection of the worked example. -/
def sampleRoot : CollNode :=
  CollNode.mk "root" 13 ["zone", "home", "root"] [] [] [sampleSub]

/-- C8 (witness): for the root collection containing the subcollection sub
containing the object x.txt, the flat dataobjects list of the recursive
export contains the record of x.txt, and its rel_path is "sub/x.txt". -/
theorem C8_export_rel_path_witness :
    (∃ objs,
      (export_metadata_to_dict_coll defaultBlacklist sampleRoot true none).dataobjects =
          some objs ∧
        objRec sampleRoot.path sampleX ∈ objs ∧
        (objRec sampleRoot.path sampleX).rel_path =
          String.intercalate "/" (sampleX.path.drop sampleRoot.path.length)) ∧
    (objRec sampleRoot.path sampleX).rel_path = "sub/x.txt" :=
  ⟨C8_export_rel_path defaultBlacklist sampleRoot sampleX
      (IsDescObj.nested _ _ _ _ _ _ _ _ (List.Mem.head _)
        (IsDescObj.direct _ _ _ _ _ _ _ (List.Mem.head _))),
   rfl⟩

end IBridges
